import Mathlib

/-!
The program id3v2.c : a shallow embedding and its verified properties

The C program `id3v2.c` reads the ID3v1 trailer, the ID3v2 header and the
first ID3v2 frame header of an MP3 file.  This development embeds

* the 32-bit `int` arithmetic used by `synchsafe` / `unsynchsafe`, signed overflow included,
* a seekable byte source (`FILE`) with `fread`, `fseek`, `fgetpos`, `fsetpos`,
* the three readers `readid3v1header`, `readid3v2header`, `readid3v2frames`,
* the sequence of print calls made by `main`.

A C `int` / `uint32_t` is represented by its 32-bit pattern, a natural number
below `2 ^ 32`; `toInt32` gives the signed reading of a pattern.
-/

namespace Id3

/-! ## 32-bit machine arithmetic -/

/-- Signed (two-complement) reading of a 32-bit pattern. -/
def toInt32 (a : Nat) : Int :=
  if a % 2 ^ 32 < 2 ^ 31 then ((a % 2 ^ 32 : Nat) : Int) else ((a % 2 ^ 32 : Nat) : Int) - 2 ^ 32

/-- The 32-bit pattern of an integer (reduction modulo `2 ^ 32`). -/
def ofInt32 (v : Int) : Nat := (v % 2 ^ 32).toNat

/-- Bit pattern of the C expression `~a`. -/
def not32 (a : Nat) : Nat := (2 ^ 32 - 1) - a % 2 ^ 32

/-- Bit pattern of `a << k`, the shifted-out bits being dropped. -/
def shl32 (a k : Nat) : Nat := (a <<< k) % 2 ^ 32

/-- Bit pattern of `a >> k` on `int`: an arithmetic shift, the sign bit is replicated. -/
def sar32 (a k : Nat) : Nat :=
  if a % 2 ^ 32 < 2 ^ 31 then (a % 2 ^ 32) >>> k
  else ((a % 2 ^ 32) >>> k) ||| (2 ^ 32 - 2 ^ (32 - k))

/-- Bit pattern of `a + b` computed with wrap-around (not what C gives on overflow). -/
def add32 (a b : Nat) : Nat := (a + b) % 2 ^ 32

/-- Bit pattern of `a - b` computed with wrap-around (not what C gives on overflow). -/
def sub32 (a b : Nat) : Nat := (a + (2 ^ 32 - b % 2 ^ 32)) % 2 ^ 32

/-- The C expression `a << k` on `int`: a value only when `a` is non-negative and `a * 2^k` is
representable in `int`; otherwise the behaviour is undefined (`none`). -/
def shlInt (a k : Nat) : Option Nat :=
  if a < 2 ^ 31 ∧ a * 2 ^ k < 2 ^ 31 then some (a * 2 ^ k) else none

/-- The C expression `a + b` on `int`: a value only when the sum is representable in `int`;
otherwise the behaviour is undefined (`none`). -/
def addInt (a b : Nat) : Option Nat :=
  if -2 ^ 31 ≤ toInt32 a + toInt32 b ∧ toInt32 a + toInt32 b < 2 ^ 31 then
    some (ofInt32 (toInt32 a + toInt32 b))
  else none

/-- The C expression `a - b` on `int`: a value only when the difference is representable in
`int`; otherwise the behaviour is undefined (`none`). -/
def subInt (a b : Nat) : Option Nat :=
  if -2 ^ 31 ≤ toInt32 a - toInt32 b ∧ toInt32 a - toInt32 b < 2 ^ 31 then
    some (ofInt32 (toInt32 a - toInt32 b))
  else none

/-- How a run of a function on `int` ends: it returns the pattern `v`, or it reaches an `int`
overflow, where C leaves the behaviour undefined, or the fuel of the model runs out. -/
inductive Outcome where
  | value (v : Nat)
  | undefined
  | outOfFuel
deriving DecidableEq, Repr

/-! ## The synchsafe helpers (`id3v2.c`, lines 98-128) -/

/-- The `while (mask ^ 0x7FFFFFFF)` loop of `synchsafe`; `inp` is the C variable `in` and the
loop state is `(in, out, mask)`.  All three variables are `int`: `out <<= 1` and
`mask = ((mask + 1) << 8) - 1` are signed operations, undefined when they overflow. -/
def synchsafeLoop : Nat → Nat → Nat → Nat → Outcome
  | 0, _, _, _ => Outcome.outOfFuel
  | fuel + 1, inp, out, mask =>
    if mask ^^^ 0x7FFFFFFF ≠ 0 then
      match shlInt (inp &&& not32 mask) 1 with
      | none => Outcome.undefined
      | some out2 =>
        match (addInt mask 1).bind (fun m => (shlInt m 8).bind (fun n => subInt n 1)) with
        | none => Outcome.undefined
        | some mask1 =>
          synchsafeLoop fuel (out2 ||| (inp &&& mask)) (out2 ||| (inp &&& mask)) mask1
    else Outcome.value out

/-- The function `int synchsafe(int in)`.  `out` is not initialised in the source; the first
loop test always succeeds (`0x7F ^ 0x7FFFFFFF` is non-zero), so its start value is never
returned. -/
def synchsafe (inp : Nat) : Outcome := synchsafeLoop 32 inp 0 0x7F

/-- The loop of `synchsafe` computed with wrap-around `int` arithmetic, as a build that wraps
signed overflow computes it.  This is not the C meaning of the source (see `synchsafeLoop`); it
shows which function the loop is written to compute.  `none` means the fuel ran out. -/
def synchsafeWrapLoop : Nat → Nat → Nat → Nat → Option Nat
  | 0, _, _, _ => none
  | fuel + 1, inp, out, mask =>
    if mask ^^^ 0x7FFFFFFF ≠ 0 then
      let out1 := inp &&& not32 mask
      let out2 := shl32 out1 1
      let out3 := out2 ||| (inp &&& mask)
      let mask1 := sub32 (shl32 (add32 mask 1) 8) 1
      synchsafeWrapLoop fuel out3 out3 mask1
    else some out

/-- The function `synchsafe` computed with wrap-around `int` arithmetic. -/
def synchsafeWrap (inp : Nat) : Option Nat := synchsafeWrapLoop 32 inp 0 0x7F

/-- The `while (mask)` loop of `unsynchsafe`; the loop state is `(out, mask)`. -/
def unsynchsafeLoop : Nat → Nat → Nat → Nat → Option Nat
  | 0, _, _, _ => none
  | fuel + 1, inp, out, mask =>
    if mask ≠ 0 then
      let out1 := sar32 out 1
      let out2 := out1 ||| (inp &&& mask)
      let mask1 := sar32 mask 8
      unsynchsafeLoop fuel inp out2 mask1
    else some out

/-- The function `int unsynchsafe(int in)`. -/
def unsynchsafe (inp : Nat) : Option Nat := unsynchsafeLoop 32 inp 0 0x7F000000

/-! ## The byte source (`FILE *`) -/

/-- An open stream: the bytes of the file (each a value below 256) and the read position. -/
structure FILE where
  bytes : List Nat
  pos : Nat
deriving DecidableEq, Repr

/-- The `n` bytes of `l` from offset `a` on (fewer when `l` ends before). -/
def slice (l : List Nat) (a n : Nat) : List Nat := (l.drop a).take n

/-- The call `fread(ptr, 1, n, f)`: the bytes available from the read position, at most `n`, are
copied to the start of the memory block `mem`, whose other bytes keep their value; the position
advances by the number of bytes read, which is also returned. -/
def fread (mem : List Nat) (n : Nat) (f : FILE) : List Nat × FILE × Nat :=
  let got := slice f.bytes f.pos n
  (got ++ mem.drop got.length, { f with pos := f.pos + got.length }, got.length)

/-- The call `fgetpos(f, &pos)`. -/
def fgetpos (f : FILE) : Nat := f.pos

/-- The call `fsetpos(f, &pos)`. -/
def fsetpos (f : FILE) (p : Nat) : FILE := { f with pos := p }

/-- The call `fseek(f, off, SEEK_END)`: the position becomes `length + off`; when that is
negative the call fails and the position is left as it was. -/
def fseekEnd (f : FILE) (off : Int) : FILE :=
  if 0 ≤ (f.bytes.length : Int) + off then
    { f with pos := ((f.bytes.length : Int) + off).toNat }
  else f

/-! ## The packed structures -/

/-- The `struct HEADERV1`: 128 packed bytes, `id[3] title[30] artist[30] album[30] year[4]
comment[30] genre`. -/
structure HEADERV1 where
  mem : List Nat
deriving DecidableEq, Repr

def HEADERV1.id (h : HEADERV1) : List Nat := slice h.mem 0 3
def HEADERV1.title (h : HEADERV1) : List Nat := slice h.mem 3 30
def HEADERV1.artist (h : HEADERV1) : List Nat := slice h.mem 33 30
def HEADERV1.album (h : HEADERV1) : List Nat := slice h.mem 63 30
def HEADERV1.year (h : HEADERV1) : List Nat := slice h.mem 93 4
def HEADERV1.comment (h : HEADERV1) : List Nat := slice h.mem 97 30
def HEADERV1.genre (h : HEADERV1) : Nat := h.mem.getD 127 0

/-- The `struct HEADERV2`: `mem` holds the 10 packed bytes `id[3] ver[2] flags size[4]` that
`fread` fills, `tagsize` is the `uint32_t` member that follows them. -/
structure HEADERV2 where
  mem : List Nat
  tagsize : Nat
deriving DecidableEq, Repr

def HEADERV2.id (h : HEADERV2) : List Nat := slice h.mem 0 3
def HEADERV2.ver (h : HEADERV2) : List Nat := slice h.mem 3 2
def HEADERV2.flags (h : HEADERV2) : Nat := h.mem.getD 5 0
def HEADERV2.size (h : HEADERV2) : List Nat := slice h.mem 6 4

/-- The `struct HEADERFRAME`: `mem` holds the 10 packed bytes `id[4] size[4] flags[2]`,
`framesize` is the `uint32_t` member that follows them. -/
structure HEADERFRAME where
  mem : List Nat
  framesize : Nat
deriving DecidableEq, Repr

def HEADERFRAME.id (h : HEADERFRAME) : List Nat := slice h.mem 0 4
def HEADERFRAME.size (h : HEADERFRAME) : List Nat := slice h.mem 4 4
def HEADERFRAME.flags (h : HEADERFRAME) : List Nat := slice h.mem 8 2

/-! ## The readers -/

/-- The expression `size[0] << 21 | size[1] << 14 | size[2] << 7 | size[3]` that both
`readid3v2header` (lines 186-189) and `readid3v2frames` (lines 222-225) assign to their
`uint32_t` size member; the `uint8_t` operands are promoted to `int`. -/
def inlineSize (size : List Nat) : Nat :=
  (shl32 (size.getD 0 0) 21 ||| shl32 (size.getD 1 0) 14 ||| shl32 (size.getD 2 0) 7
    ||| size.getD 3 0) % 2 ^ 32

/-- The function `readid3v1header`: save the position, seek to 128 bytes before the end, read
128 bytes over the structure, restore the position. -/
def readid3v1header (f : FILE) (header : HEADERV1) : FILE × HEADERV1 :=
  let oldpos := fgetpos f
  let f1 := fseekEnd f (-128)
  let r := fread header.mem 128 f1
  (fsetpos r.2.1 oldpos, { mem := r.1 })

/-- The function `readid3v2header`: read 10 bytes over the structure, then set `tagsize`. -/
def readid3v2header (f : FILE) (header : HEADERV2) : FILE × HEADERV2 :=
  let r := fread header.mem 10 f
  let h1 : HEADERV2 := { header with mem := r.1 }
  (r.2.1, { h1 with tagsize := inlineSize h1.size })

/-- The print calls of the program, each with the structure it is handed. -/
inductive Call where
  | printid3v1headerinfo (h : HEADERV1)
  | printid3v2headerinfo (h : HEADERV2)
  | printid3v2frameinfo (fr : HEADERFRAME)
deriving DecidableEq, Repr

/-- The function `readid3v2frames`: `frame0` is the content of the block `malloc` returns.
Ten bytes are read over it, `framesize` is set, and the frame is handed to
`printid3v2frameinfo`; `header` is not consulted and `bytesread` is never read back. -/
def readid3v2frames (f : FILE) (_header : HEADERV2) (frame0 : HEADERFRAME) : FILE × List Call :=
  let r := fread frame0.mem 10 f
  let frame1 : HEADERFRAME := { frame0 with mem := r.1 }
  let frame2 : HEADERFRAME := { frame1 with framesize := inlineSize frame1.size }
  (r.2.1, [Call.printid3v2frameinfo frame2])

/-- The frames a call sequence hands to `printid3v2frameinfo`, in order. -/
def framesOf : List Call → List HEADERFRAME
  | [] => []
  | Call.printid3v2frameinfo fr :: cs => fr :: framesOf cs
  | _ :: cs => framesOf cs

/-- The function `main` from the `fopen` on: `song` is the content of `song2.mp3` (`none` when
`fopen` fails and the program exits), `m2`, `m1`, `mf` are the contents of the three blocks
`malloc` returns.  The result is the sequence of print calls. -/
def main (song : Option (List Nat)) (m2 : HEADERV2) (m1 : HEADERV1) (mf : HEADERFRAME) :
    List Call :=
  match song with
  | none => []
  | some bytes =>
    let f : FILE := { bytes := bytes, pos := 0 }
    let r1 := readid3v1header f m1
    let r2 := readid3v2header r1.1 m2
    let r3 := readid3v2frames r2.1 r2.2 mf
    Call.printid3v1headerinfo r1.2 :: Call.printid3v2headerinfo r2.2 :: r3.2

/-- A byte in the ranges `'A'..'Z'` or `'0'..'9'`. -/
def isUpperAlnum (c : Nat) : Bool := (65 ≤ c && c ≤ 90) || (48 ≤ c && c ≤ 57)

/-- A 128-byte source that starts with the bytes `TAG`, then 124 spaces and the genre byte 12. -/
def sampleV1 : List Nat := [0x54, 0x41, 0x47] ++ List.replicate 124 0x20 ++ [12]

/-- A v2 header structure as `readid3v2header` leaves it for the bytes
`49 44 33 ver 00 00 00 00 00 7F`: major version `ver`, `tagsize` 127. -/
def sampleHeaderV2 (ver : Nat) : HEADERV2 :=
  { mem := [0x49, 0x44, 0x33, ver, 0, 0, 0, 0, 0, 0x7F], tagsize := 127 }

/-- A 42-byte source: the v2 header `49 44 33 04 00 00 00 00 00 20` (major version 4, tag size
32), the frame `TIT2` of declared size 1, the frame `TPE1` of declared size 1, ten zero bytes. -/
def sampleTwoFrames : List Nat :=
  [0x49, 0x44, 0x33, 0x04, 0, 0, 0, 0, 0, 0x20,
   0x54, 0x49, 0x54, 0x32, 0, 0, 0, 1, 0, 0, 0x41,
   0x54, 0x50, 0x45, 0x31, 0, 0, 0, 1, 0, 0, 0x42,
   0, 0, 0, 0, 0, 0, 0, 0, 0, 0]

/-- The size rule as the specification words it (compared with `inlineSize` below): the four
size bytes of a frame are read as a synchsafe number when the major version is at least 4, and
as a plain big-endian 32-bit number otherwise. -/
def specDeclaredSize (major : Nat) (size : List Nat) : Nat :=
  if 4 ≤ major then
    size.getD 0 0 * 2 ^ 21 + size.getD 1 0 * 2 ^ 14 + size.getD 2 0 * 2 ^ 7 + size.getD 3 0
  else
    size.getD 0 0 * 2 ^ 24 + size.getD 1 0 * 2 ^ 16 + size.getD 2 0 * 2 ^ 8 + size.getD 3 0

/-! ## Bit-level lemmas -/

theorem land_concat (k a b c d : Nat) (hb : b < 2 ^ k) (hd : d < 2 ^ k) :
    (2 ^ k * a + b) &&& (2 ^ k * c + d) = 2 ^ k * (a &&& c) + (b &&& d) := by
  have hbd : b &&& d < 2 ^ k := Nat.and_lt_two_pow b hd
  apply Nat.eq_of_testBit_eq
  intro j
  rw [Nat.testBit_and, Nat.testBit_mul_pow_two_add a hb, Nat.testBit_mul_pow_two_add c hd,
    Nat.testBit_mul_pow_two_add _ hbd]
  by_cases h : j < k <;> simp [h]

/-- Masking with `2^k * (2^n - 1)` keeps the `n` bits from position `k` upwards. -/
theorem and_high_mask (x k n : Nat) :
    x &&& (2 ^ k * (2 ^ n - 1)) = 2 ^ k * (x / 2 ^ k % 2 ^ n) := by
  have hx : x = 2 ^ k * (x / 2 ^ k) + x % 2 ^ k := (Nat.div_add_mod x (2 ^ k)).symm
  have h := land_concat k (x / 2 ^ k) (x % 2 ^ k) (2 ^ n - 1) 0
    (Nat.mod_lt _ (Nat.two_pow_pos k)) (Nat.two_pow_pos k)
  rw [Nat.add_zero, ← hx, Nat.and_zero, Nat.add_zero, Nat.and_pow_two_sub_one_eq_mod] at h
  exact h

/-- A bitwise or of a multiple of `2^k` with a value below `2^k` is their sum. -/
theorem lor_eq_add (k p q : Nat) (hp : 2 ^ k ∣ p) (hq : q < 2 ^ k) : p ||| q = p + q := by
  obtain ⟨m, rfl⟩ := hp
  exact (Nat.mul_add_lt_is_or hq m).symm

theorem sar32_of_lt (a k : Nat) (h : a < 2 ^ 31) : sar32 a k = a / 2 ^ k := by
  have h1 : a % 2 ^ 32 = a := Nat.mod_eq_of_lt (by omega)
  simp only [sar32, h1, h, if_true, Nat.shiftRight_eq_div_pow]

theorem shl32_of_lt (a k : Nat) (h : a * 2 ^ k < 2 ^ 32) : shl32 a k = a * 2 ^ k := by
  rw [shl32, Nat.shiftLeft_eq, Nat.mod_eq_of_lt h]

/-! ## Closed forms of the two helpers -/

theorem synchsafeWrapLoop_step (fuel inp out mask : Nat) (hm : mask ^^^ 0x7FFFFFFF ≠ 0) :
    synchsafeWrapLoop (fuel + 1) inp out mask
      = synchsafeWrapLoop fuel (shl32 (inp &&& not32 mask) 1 ||| (inp &&& mask))
          (shl32 (inp &&& not32 mask) 1 ||| (inp &&& mask))
          (sub32 (shl32 (add32 mask 1) 8) 1) := by
  simp [synchsafeWrapLoop, hm]

theorem synchsafeWrapLoop_exit (fuel inp out : Nat) :
    synchsafeWrapLoop (fuel + 1) inp out 0x7FFFFFFF = some out := by
  simp [synchsafeWrapLoop]

/-- The start value of the unassigned `out` never reaches the result of the wrap-around run. -/
theorem synchsafeWrapLoop_out_irrelevant (inp out : Nat) :
    synchsafeWrapLoop 32 inp out 0x7F = synchsafeWrap inp := by
  rw [synchsafeWrap, show (32 : Nat) = 31 + 1 from rfl,
    synchsafeWrapLoop_step _ inp out _ (by decide), synchsafeWrapLoop_step _ inp 0 _ (by decide)]

/-- One pass of the wrap-around `synchsafe` loop body on a value that fits 31 bits, for the mask `2^k - 1`:
the bits from position `k` upwards move one place up. -/
theorem synchsafe_body7 (x : Nat) (hx : x < 2 ^ 31) :
    shl32 (x &&& 0xFFFFFF80) 1 ||| (x &&& 0x7F) = 2 ^ 8 * (x / 2 ^ 7) + x % 2 ^ 7 := by
  have h1 : x &&& 0xFFFFFF80 = 2 ^ 7 * (x / 2 ^ 7) := by
    have h := and_high_mask x 7 25
    rw [show 2 ^ 7 * (2 ^ 25 - 1) = 0xFFFFFF80 from by norm_num] at h
    rw [h]; omega
  rw [h1, Nat.and_pow_two_sub_one_eq_mod x 7, shl32_of_lt _ _ (by omega),
    lor_eq_add 8 _ _ (by omega) (by omega)]
  omega

theorem synchsafe_body15 (x : Nat) (hx : x < 2 ^ 31) :
    shl32 (x &&& 0xFFFF8000) 1 ||| (x &&& 0x7FFF) = 2 ^ 16 * (x / 2 ^ 15) + x % 2 ^ 15 := by
  have h1 : x &&& 0xFFFF8000 = 2 ^ 15 * (x / 2 ^ 15) := by
    have h := and_high_mask x 15 17
    rw [show 2 ^ 15 * (2 ^ 17 - 1) = 0xFFFF8000 from by norm_num] at h
    rw [h]; omega
  rw [h1, Nat.and_pow_two_sub_one_eq_mod x 15, shl32_of_lt _ _ (by omega),
    lor_eq_add 16 _ _ (by omega) (by omega)]
  omega

theorem synchsafe_body23 (x : Nat) (hx : x < 2 ^ 31) :
    shl32 (x &&& 0xFF800000) 1 ||| (x &&& 0x7FFFFF) = 2 ^ 24 * (x / 2 ^ 23) + x % 2 ^ 23 := by
  have h1 : x &&& 0xFF800000 = 2 ^ 23 * (x / 2 ^ 23) := by
    have h := and_high_mask x 23 9
    rw [show 2 ^ 23 * (2 ^ 9 - 1) = 0xFF800000 from by norm_num] at h
    rw [h]; omega
  rw [h1, Nat.and_pow_two_sub_one_eq_mod x 23, shl32_of_lt _ _ (by omega),
    lor_eq_add 24 _ _ (by omega) (by omega)]
  omega

/-- Closed form of the wrap-around run of `synchsafe` on 28-bit values: the four 7-bit groups
of `v` become the four bytes of the result. -/
theorem synchsafeWrap_eq (v : Nat) (hv : v < 2 ^ 28) :
    synchsafeWrap v = some (2 ^ 24 * (v / 2 ^ 21 % 128) + 2 ^ 16 * (v / 2 ^ 14 % 128)
      + 2 ^ 8 * (v / 2 ^ 7 % 128) + v % 128) := by
  have k1 : sub32 (shl32 (add32 0x7F 1) 8) 1 = 0x7FFF := by decide
  have k2 : sub32 (shl32 (add32 0x7FFF 1) 8) 1 = 0x7FFFFF := by decide
  have k3 : sub32 (shl32 (add32 0x7FFFFF 1) 8) 1 = 0x7FFFFFFF := by decide
  have n1 : not32 0x7F = 0xFFFFFF80 := by decide
  have n2 : not32 0x7FFF = 0xFFFF8000 := by decide
  have n3 : not32 0x7FFFFF = 0xFF800000 := by decide
  have q1 : 2 ^ 8 * (v / 2 ^ 7) + v % 2 ^ 7
      = 2 ^ 22 * (v / 2 ^ 21 % 128) + 2 ^ 15 * (v / 2 ^ 14 % 128)
        + 2 ^ 8 * (v / 2 ^ 7 % 128) + v % 128 := by omega
  have ha : v / 2 ^ 21 % 128 < 128 := Nat.mod_lt _ (by norm_num)
  have hb : v / 2 ^ 14 % 128 < 128 := Nat.mod_lt _ (by norm_num)
  have hc : v / 2 ^ 7 % 128 < 128 := Nat.mod_lt _ (by norm_num)
  have hd : v % 128 < 128 := Nat.mod_lt _ (by norm_num)
  rw [synchsafeWrap, show (32 : Nat) = 28 + 1 + 1 + 1 + 1 from rfl,
    synchsafeWrapLoop_step _ _ _ _ (by decide), k1, n1, synchsafe_body7 v (by omega), q1]
  generalize v / 2 ^ 21 % 128 = a at ha ⊢
  generalize v / 2 ^ 14 % 128 = b at hb ⊢
  generalize v / 2 ^ 7 % 128 = c at hc ⊢
  generalize v % 128 = d at hd ⊢
  have q2 : 2 ^ 16 * ((2 ^ 22 * a + 2 ^ 15 * b + 2 ^ 8 * c + d) / 2 ^ 15)
      + (2 ^ 22 * a + 2 ^ 15 * b + 2 ^ 8 * c + d) % 2 ^ 15
      = 2 ^ 23 * a + 2 ^ 16 * b + 2 ^ 8 * c + d := by omega
  have q3 : 2 ^ 24 * ((2 ^ 23 * a + 2 ^ 16 * b + 2 ^ 8 * c + d) / 2 ^ 23)
      + (2 ^ 23 * a + 2 ^ 16 * b + 2 ^ 8 * c + d) % 2 ^ 23
      = 2 ^ 24 * a + 2 ^ 16 * b + 2 ^ 8 * c + d := by omega
  rw [synchsafeWrapLoop_step _ _ _ _ (by decide), k2, n2, synchsafe_body15 _ (by omega), q2,
    synchsafeWrapLoop_step _ _ _ _ (by decide), k3, n3, synchsafe_body23 _ (by omega), q3,
    synchsafeWrapLoop_exit]

theorem unsynchsafeLoop_step (fuel inp out mask : Nat) (hm : mask ≠ 0) :
    unsynchsafeLoop (fuel + 1) inp out mask
      = unsynchsafeLoop fuel inp (sar32 out 1 ||| (inp &&& mask)) (sar32 mask 8) := by
  simp [unsynchsafeLoop, hm]

theorem unsynchsafeLoop_exit (fuel inp out : Nat) :
    unsynchsafeLoop (fuel + 1) inp out 0 = some out := by
  simp [unsynchsafeLoop]

/-- Closed form of `unsynchsafe` on every input: the low 7 bits of each of the four bytes of `x`
are packed together, bit 7 of each byte being masked away. -/
theorem unsynchsafe_eq (x : Nat) :
    unsynchsafe x = some (2 ^ 21 * (x / 2 ^ 24 % 128) + 2 ^ 14 * (x / 2 ^ 16 % 128)
      + 2 ^ 7 * (x / 2 ^ 8 % 128) + x % 128) := by
  have m1 : sar32 0x7F000000 8 = 0x7F0000 := by decide
  have m2 : sar32 0x7F0000 8 = 0x7F00 := by decide
  have m3 : sar32 0x7F00 8 = 0x7F := by decide
  have m4 : sar32 0x7F 8 = 0 := by decide
  have s0 : sar32 0 1 = 0 := by decide
  have e1 : x &&& 0x7F000000 = 2 ^ 24 * (x / 2 ^ 24 % 128) := by
    have h := and_high_mask x 24 7
    rw [show 2 ^ 24 * (2 ^ 7 - 1) = 0x7F000000 from by norm_num] at h
    exact h
  have e2 : x &&& 0x7F0000 = 2 ^ 16 * (x / 2 ^ 16 % 128) := by
    have h := and_high_mask x 16 7
    rw [show 2 ^ 16 * (2 ^ 7 - 1) = 0x7F0000 from by norm_num] at h
    exact h
  have e3 : x &&& 0x7F00 = 2 ^ 8 * (x / 2 ^ 8 % 128) := by
    have h := and_high_mask x 8 7
    rw [show 2 ^ 8 * (2 ^ 7 - 1) = 0x7F00 from by norm_num] at h
    exact h
  have e4 : x &&& 0x7F = x % 128 := Nat.and_pow_two_sub_one_eq_mod x 7
  rw [unsynchsafe, show (32 : Nat) = 27 + 1 + 1 + 1 + 1 + 1 from rfl,
    unsynchsafeLoop_step _ _ _ _ (by decide), s0, Nat.zero_or, m1,
    unsynchsafeLoop_step _ _ _ _ (by decide), m2,
    unsynchsafeLoop_step _ _ _ _ (by decide), m3,
    unsynchsafeLoop_step _ _ _ _ (by decide), m4, unsynchsafeLoop_exit, e1, e2, e3, e4]
  have ha : x / 2 ^ 24 % 128 < 128 := Nat.mod_lt _ (by norm_num)
  have hb : x / 2 ^ 16 % 128 < 128 := Nat.mod_lt _ (by norm_num)
  have hc : x / 2 ^ 8 % 128 < 128 := Nat.mod_lt _ (by norm_num)
  have hd : x % 128 < 128 := Nat.mod_lt _ (by norm_num)
  generalize x / 2 ^ 24 % 128 = a at ha ⊢
  generalize x / 2 ^ 16 % 128 = b at hb ⊢
  generalize x / 2 ^ 8 % 128 = c at hc ⊢
  generalize x % 128 = d at hd ⊢
  have t1 : sar32 (2 ^ 24 * a) 1 = 2 ^ 23 * a := by
    rw [sar32_of_lt _ _ (by omega)]; omega
  rw [t1, lor_eq_add 23 (2 ^ 23 * a) (2 ^ 16 * b) (by omega) (by omega)]
  have t2 : sar32 (2 ^ 23 * a + 2 ^ 16 * b) 1 = 2 ^ 22 * a + 2 ^ 15 * b := by
    rw [sar32_of_lt _ _ (by omega)]; omega
  rw [t2, lor_eq_add 15 (2 ^ 22 * a + 2 ^ 15 * b) (2 ^ 8 * c) (by omega) (by omega)]
  have t3 : sar32 (2 ^ 22 * a + 2 ^ 15 * b + 2 ^ 8 * c) 1
      = 2 ^ 21 * a + 2 ^ 14 * b + 2 ^ 7 * c := by
    rw [sar32_of_lt _ _ (by omega)]; omega
  rw [t3, lor_eq_add 7 (2 ^ 21 * a + 2 ^ 14 * b + 2 ^ 7 * c) d (by omega) (by omega)]

/-! ## The inline size expression -/

/-- On bytes below `0x80` the four shifted groups do not overlap: the inline expression is the
synchsafe number `b0 * 2^21 + b1 * 2^14 + b2 * 2^7 + b3`. -/
theorem inlineSize_of_lt (b0 b1 b2 b3 : Nat) (h0 : b0 < 128) (h1 : b1 < 128) (h2 : b2 < 128)
    (h3 : b3 < 128) :
    inlineSize [b0, b1, b2, b3] = b0 * 2 ^ 21 + b1 * 2 ^ 14 + b2 * 2 ^ 7 + b3 := by
  simp only [inlineSize, List.getD_cons_zero, List.getD_cons_succ]
  rw [shl32_of_lt _ _ (by omega), shl32_of_lt _ _ (by omega), shl32_of_lt _ _ (by omega),
    lor_eq_add 21 (b0 * 2 ^ 21) (b1 * 2 ^ 14) (by omega) (by omega),
    lor_eq_add 14 (b0 * 2 ^ 21 + b1 * 2 ^ 14) (b2 * 2 ^ 7) (by omega) (by omega),
    lor_eq_add 7 (b0 * 2 ^ 21 + b1 * 2 ^ 14 + b2 * 2 ^ 7) b3 (by omega) (by omega)]
  omega

/-- On any four bytes the inline expression wraps nowhere: it is the plain bitwise or of the
shifted bytes, a value below `2^29`. -/
theorem inlineSize_of_byte (b0 b1 b2 b3 : Nat) (h0 : b0 < 256) (h1 : b1 < 256) (h2 : b2 < 256)
    (h3 : b3 < 256) :
    inlineSize [b0, b1, b2, b3] = (b0 <<< 21 ||| b1 <<< 14 ||| b2 <<< 7 ||| b3) ∧
      inlineSize [b0, b1, b2, b3] < 2 ^ 29 := by
  simp only [inlineSize, List.getD_cons_zero, List.getD_cons_succ, shl32]
  have e0 : b0 <<< 21 < 2 ^ 29 := by rw [Nat.shiftLeft_eq]; omega
  have e1 : b1 <<< 14 < 2 ^ 29 := by rw [Nat.shiftLeft_eq]; omega
  have e2 : b2 <<< 7 < 2 ^ 29 := by rw [Nat.shiftLeft_eq]; omega
  have e3 : b3 < 2 ^ 29 := by omega
  rw [Nat.mod_eq_of_lt (show b0 <<< 21 < 2 ^ 32 by omega),
    Nat.mod_eq_of_lt (show b1 <<< 14 < 2 ^ 32 by omega),
    Nat.mod_eq_of_lt (show b2 <<< 7 < 2 ^ 32 by omega)]
  have hlt : b0 <<< 21 ||| b1 <<< 14 ||| b2 <<< 7 ||| b3 < 2 ^ 29 :=
    Nat.or_lt_two_pow (Nat.or_lt_two_pow (Nat.or_lt_two_pow e0 e1) e2) e3
  rw [Nat.mod_eq_of_lt (show b0 <<< 21 ||| b1 <<< 14 ||| b2 <<< 7 ||| b3 < 2 ^ 32 by omega)]
  exact ⟨rfl, hlt⟩

/-! ## Reading from the byte source -/

theorem slice_of_drop_eq (l x rest : List Nat) (a n : Nat) (h : l.drop a = x ++ rest)
    (hx : x.length = n) : slice l a n = x := by
  rw [slice, h, ← hx, List.take_left]

theorem slice_append_left (x y : List Nat) (i n : Nat) (h : i + n ≤ x.length) :
    slice (x ++ y) i n = slice x i n := by
  rw [slice, slice, List.drop_append_of_le_length (by omega),
    List.take_append_of_le_length (by rw [List.length_drop]; omega)]

/-- When the `n` bytes `x` are available at the read position, `fread` stores exactly them. -/
theorem fread_of_available (mem x rest : List Nat) (n : Nat) (f : FILE)
    (h : f.bytes.drop f.pos = x ++ rest) (hx : x.length = n) :
    fread mem n f = (x ++ mem.drop n, { f with pos := f.pos + n }, n) := by
  simp only [fread, slice_of_drop_eq _ _ _ _ _ h hx, hx]

/-- What `readid3v2header` computes when ten bytes are available at the read position. -/
theorem readid3v2header_of_available (f : FILE) (header : HEADERV2) (x rest : List Nat)
    (h : f.bytes.drop f.pos = x ++ rest) (hx : x.length = 10) :
    readid3v2header f header
      = ({ f with pos := f.pos + 10 },
         { mem := x ++ header.mem.drop 10, tagsize := inlineSize (slice x 6 4) }) := by
  simp only [readid3v2header, fread_of_available _ _ _ _ _ h hx, HEADERV2.size]
  rw [slice_append_left _ _ _ _ (by omega)]

/-- What `readid3v2frames` computes when ten bytes are available at the read position. -/
theorem readid3v2frames_of_available (f : FILE) (header : HEADERV2) (frame0 : HEADERFRAME)
    (x rest : List Nat) (h : f.bytes.drop f.pos = x ++ rest) (hx : x.length = 10) :
    readid3v2frames f header frame0
      = ({ f with pos := f.pos + 10 },
         [Call.printid3v2frameinfo
           { mem := x ++ frame0.mem.drop 10, framesize := inlineSize (slice x 4 4) }]) := by
  simp only [readid3v2frames, fread_of_available _ _ _ _ _ h hx, HEADERFRAME.size]
  rw [slice_append_left _ _ _ _ (by omega)]

/-- Whatever the source holds, `readid3v2frames` hands exactly one frame to
`printid3v2frameinfo`. -/
theorem readid3v2frames_yields_one (f : FILE) (header : HEADERV2) (frame0 : HEADERFRAME) :
    (framesOf (readid3v2frames f header frame0).2).length = 1 := rfl

theorem slice_drop (l : List Nat) (p i n : Nat) : slice (l.drop p) i n = slice l (p + i) n := by
  rw [slice, slice, List.drop_drop, Nat.add_comm]

/-- What `readid3v1header` computes on a source of at least 128 bytes: the structure receives
the last 128 bytes and the stream is as before the call. -/
theorem readid3v1header_of_ge (f : FILE) (header : HEADERV1) (hL : 128 ≤ f.bytes.length) :
    readid3v1header f header
      = (f, { mem := f.bytes.drop (f.bytes.length - 128) ++ header.mem.drop 128 }) := by
  have hseek : fseekEnd f (-128) = { f with pos := f.bytes.length - 128 } := by
    unfold fseekEnd
    have h : ((f.bytes.length : Int) + -128).toNat = f.bytes.length - 128 := by omega
    rw [if_pos (by omega), h]
  have hread := fread_of_available header.mem (f.bytes.drop (f.bytes.length - 128)) [] 128
    { f with pos := f.bytes.length - 128 } (by simp) (by rw [List.length_drop]; omega)
  simp only [readid3v1header, hseek, hread, fsetpos, fgetpos]

/-- The four bytes of a word whose bytes are the values `a`, `b`, `c`, `d`, each below `0x80`. -/
theorem synchsafe_groups (a b c d : Nat) (ha : a < 128) (hb : b < 128) (hc : c < 128)
    (hd : d < 128) :
    (2 ^ 24 * a + 2 ^ 16 * b + 2 ^ 8 * c + d) / 2 ^ 24 % 128 = a ∧
    (2 ^ 24 * a + 2 ^ 16 * b + 2 ^ 8 * c + d) / 2 ^ 16 % 128 = b ∧
    (2 ^ 24 * a + 2 ^ 16 * b + 2 ^ 8 * c + d) / 2 ^ 8 % 128 = c ∧
    (2 ^ 24 * a + 2 ^ 16 * b + 2 ^ 8 * c + d) % 128 = d := by
  have d1 : (2 ^ 24 * a + 2 ^ 16 * b + 2 ^ 8 * c + d) / 2 ^ 24 = a := by omega
  have d2 : (2 ^ 24 * a + 2 ^ 16 * b + 2 ^ 8 * c + d) / 2 ^ 16 = 2 ^ 8 * a + b := by omega
  have d3 : (2 ^ 24 * a + 2 ^ 16 * b + 2 ^ 8 * c + d) / 2 ^ 8 = 2 ^ 16 * a + 2 ^ 8 * b + c := by
    omega
  rw [d1, d2, d3]
  refine ⟨by omega, by omega, by omega, by omega⟩

theorem and_0x80_of_lt (a : Nat) (ha : a < 128) : a &&& 0x80 = 0 := by
  have h := and_high_mask a 7 1
  rw [show 2 ^ 7 * (2 ^ 1 - 1) = 0x80 from by norm_num] at h
  rw [h]; omega

/-- A word whose four bytes are below `0x80` has no bit in common with `0x80808080`. -/
theorem and_0x80808080_of_groups (a b c d : Nat) (ha : a < 128) (hb : b < 128) (hc : c < 128)
    (hd : d < 128) : (2 ^ 24 * a + 2 ^ 16 * b + 2 ^ 8 * c + d) &&& 0x80808080 = 0 := by
  have e1 : 2 ^ 24 * a + 2 ^ 16 * b + 2 ^ 8 * c + d
      = 2 ^ 24 * a + (2 ^ 16 * b + (2 ^ 8 * c + d)) := by omega
  have e2 : (0x80808080 : Nat) = 2 ^ 24 * 0x80 + (2 ^ 16 * 0x80 + (2 ^ 8 * 0x80 + 0x80)) := by
    norm_num
  rw [e1, e2, land_concat 24 _ _ _ _ (by omega) (by norm_num),
    land_concat 16 _ _ _ _ (by omega) (by norm_num),
    land_concat 8 _ _ _ _ (by omega) (by norm_num),
    and_0x80_of_lt a ha, and_0x80_of_lt b hb, and_0x80_of_lt c hc, and_0x80_of_lt d hd]
  simp

/-! ## The run of `synchsafe` under the C rules for `int` -/

/-- One pass of the loop whose mask update stays inside `int`. -/
theorem synchsafeLoop_pass (fuel inp out mask mask1 : Nat) (hm : mask ^^^ 0x7FFFFFFF ≠ 0)
    (h : (addInt mask 1).bind (fun m => (shlInt m 8).bind (fun n => subInt n 1)) = some mask1) :
    synchsafeLoop (fuel + 1) inp out mask
      = match shlInt (inp &&& not32 mask) 1 with
        | none => Outcome.undefined
        | some out2 =>
          synchsafeLoop fuel (out2 ||| (inp &&& mask)) (out2 ||| (inp &&& mask)) mask1 := by
  simp only [synchsafeLoop, hm, h, if_true, ne_eq, not_false_eq_true]

/-- One pass of the loop whose mask update leaves `int`. -/
theorem synchsafeLoop_overflow (fuel inp out mask : Nat) (hm : mask ^^^ 0x7FFFFFFF ≠ 0)
    (h : (addInt mask 1).bind (fun m => (shlInt m 8).bind (fun n => subInt n 1)) = none) :
    synchsafeLoop (fuel + 1) inp out mask = Outcome.undefined := by
  simp only [synchsafeLoop, hm, h, if_true, ne_eq, not_false_eq_true]
  split <;> rfl

/-- On every input `synchsafe` reaches an `int` overflow: at the latest in the third pass, where
`mask` is `0x7FFFFF` and `(mask + 1) << 8` is `0x800000 << 8 = 2^31`, one more than `INT_MAX`.
The loop test reads `mask` only, so no input avoids that pass. -/
theorem synchsafe_undefined (inp : Nat) : synchsafe inp = Outcome.undefined := by
  rw [synchsafe, show (32 : Nat) = 29 + 1 + 1 + 1 from rfl,
    synchsafeLoop_pass _ _ _ 0x7F 0x7FFF (by decide) (by decide)]
  cases shlInt (inp &&& not32 0x7F) 1 with
  | none => rfl
  | some o1 =>
    show synchsafeLoop (29 + 1 + 1) _ _ 0x7FFF = _
    rw [synchsafeLoop_pass _ _ _ 0x7FFF 0x7FFFFF (by decide) (by decide)]
    cases shlInt ((o1 ||| (inp &&& 0x7F)) &&& not32 0x7FFF) 1 with
    | none => rfl
    | some o2 =>
      show synchsafeLoop (29 + 1) _ _ 0x7FFFFF = _
      exact synchsafeLoop_overflow _ _ _ 0x7FFFFF (by decide) (by decide)

/-! ## The run of `synchsafe` under wrap-around arithmetic -/

/-- Round trip under wrap-around arithmetic: for every integer `v` with `0 ≤ v < 2^28`, the
wrap-around run of `synchsafe` returns a value `s`, `unsynchsafe` returns a value `r` on `s`, and
`r` read as a signed `int` is `v`. -/
theorem synchsafeWrap_roundtrip (v : Int) (h0 : 0 ≤ v) (h1 : v < 2 ^ 28) :
    ∃ s r, synchsafeWrap (ofInt32 v) = some s ∧ unsynchsafe s = some r ∧ toInt32 r = v := by
  obtain ⟨n, rfl⟩ := Int.eq_ofNat_of_zero_le h0
  have hn : n < 2 ^ 28 := by exact_mod_cast h1
  have hp : ofInt32 (n : Int) = n := by
    unfold ofInt32
    omega
  refine ⟨_, _, by rw [hp]; exact synchsafeWrap_eq n hn, unsynchsafe_eq _, ?_⟩
  have hsplit : 2 ^ 21 * (n / 2 ^ 21 % 128) + 2 ^ 14 * (n / 2 ^ 14 % 128)
      + 2 ^ 7 * (n / 2 ^ 7 % 128) + n % 128 = n := by omega
  have ha : n / 2 ^ 21 % 128 < 128 := Nat.mod_lt _ (by norm_num)
  have hb : n / 2 ^ 14 % 128 < 128 := Nat.mod_lt _ (by norm_num)
  have hc : n / 2 ^ 7 % 128 < 128 := Nat.mod_lt _ (by norm_num)
  have hd : n % 128 < 128 := Nat.mod_lt _ (by norm_num)
  generalize n / 2 ^ 21 % 128 = a at ha hsplit ⊢
  generalize n / 2 ^ 14 % 128 = b at hb hsplit ⊢
  generalize n / 2 ^ 7 % 128 = c at hc hsplit ⊢
  generalize n % 128 = d at hd hsplit ⊢
  rw [(synchsafe_groups a b c d ha hb hc hd).1, (synchsafe_groups a b c d ha hb hc hd).2.1,
    (synchsafe_groups a b c d ha hb hc hd).2.2.1, (synchsafe_groups a b c d ha hb hc hd).2.2.2,
    hsplit, toInt32, Nat.mod_eq_of_lt (by omega), if_pos (by omega)]

/-- Byte layout under wrap-around arithmetic: for every `v` with `0 ≤ v < 2^28`, the wrap-around
run of `synchsafe` returns a value `s` with `s AND 0x80808080 = 0` whose bytes, from the most to
the least significant, are `(v>>21)&0x7F`, `(v>>14)&0x7F`, `(v>>7)&0x7F`, `v&0x7F`. -/
theorem synchsafeWrap_bytes (v : Nat) (hv : v < 2 ^ 28) :
    ∃ s, synchsafeWrap v = some s ∧ s &&& 0x80808080 = 0 ∧
      (s >>> 24) &&& 0xFF = (v >>> 21) &&& 0x7F ∧
      (s >>> 16) &&& 0xFF = (v >>> 14) &&& 0x7F ∧
      (s >>> 8) &&& 0xFF = (v >>> 7) &&& 0x7F ∧
      s &&& 0xFF = v &&& 0x7F := by
  refine ⟨_, synchsafeWrap_eq v hv, ?_⟩
  have m8 : ∀ x : Nat, x &&& 0xFF = x % 256 := fun x => Nat.and_pow_two_sub_one_eq_mod x 8
  have m7 : ∀ x : Nat, x &&& 0x7F = x % 128 := fun x => Nat.and_pow_two_sub_one_eq_mod x 7
  simp only [m8, m7, Nat.shiftRight_eq_div_pow]
  have ha : v / 2 ^ 21 % 128 < 128 := Nat.mod_lt _ (by norm_num)
  have hb : v / 2 ^ 14 % 128 < 128 := Nat.mod_lt _ (by norm_num)
  have hc : v / 2 ^ 7 % 128 < 128 := Nat.mod_lt _ (by norm_num)
  have hd : v % 128 < 128 := Nat.mod_lt _ (by norm_num)
  generalize v / 2 ^ 21 % 128 = a at ha ⊢
  generalize v / 2 ^ 14 % 128 = b at hb ⊢
  generalize v / 2 ^ 7 % 128 = c at hc ⊢
  generalize v % 128 = d at hd ⊢
  have d1 : (2 ^ 24 * a + 2 ^ 16 * b + 2 ^ 8 * c + d) / 2 ^ 24 = a := by omega
  have d2 : (2 ^ 24 * a + 2 ^ 16 * b + 2 ^ 8 * c + d) / 2 ^ 16 = 2 ^ 8 * a + b := by omega
  have d3 : (2 ^ 24 * a + 2 ^ 16 * b + 2 ^ 8 * c + d) / 2 ^ 8 = 2 ^ 16 * a + 2 ^ 8 * b + c := by
    omega
  rw [d1, d2, d3]
  exact ⟨and_0x80808080_of_groups a b c d ha hb hc hd, by omega, by omega, by omega, by omega⟩

/-! ## The claims -/

/-- C1, the code at the failing input `v = 127`. The round trip has no defined result:
`synchsafe` reaches the signed overflow `0x800000 << 8` of its mask update before it can return,
at `v = 127` and at every other integer `v`, so there is no value to hand to `unsynchsafe`. -/
theorem C1_synchsafe_overflows_int :
    synchsafe (ofInt32 127) = Outcome.undefined ∧
    (addInt 0x7FFFFF 1).bind (fun m => shlInt m 8) = none ∧
    ∀ v : Int, synchsafe (ofInt32 v) = Outcome.undefined :=
  ⟨synchsafe_undefined _, by decide, fun v => synchsafe_undefined (ofInt32 v)⟩

/-- C9, the code at the failing input `v = 0x0FFFFFFF`. `synchsafe` returns no value whose bytes
could be inspected: the run ends in the signed overflow of the mask update, at `0x0FFFFFFF` and
at every other 32-bit pattern. -/
theorem C9_synchsafe_returns_no_value :
    synchsafe 0x0FFFFFFF = Outcome.undefined ∧
    ∀ v s : Nat, synchsafe v ≠ Outcome.value s := by
  refine ⟨synchsafe_undefined _, fun v s h => ?_⟩
  rw [synchsafe_undefined v] at h
  exact Outcome.noConfusion h

/-- C10. On four bytes `b0..b3`, each below `0x80`, `unsynchsafe` applied to the word
`b0<<24 | b1<<16 | b2<<8 | b3` returns the value of the inline size expression
`b0<<21 | b1<<14 | b2<<7 | b3` of the two readers; and there are four bytes, one of them at
least `0x80`, on which the two differ. -/
theorem C10_unsynchsafe_vs_inline (b0 b1 b2 b3 : Nat) (h0 : b0 < 0x80) (h1 : b1 < 0x80)
    (h2 : b2 < 0x80) (h3 : b3 < 0x80) :
    unsynchsafe (shl32 b0 24 ||| shl32 b1 16 ||| shl32 b2 8 ||| b3)
        = some (inlineSize [b0, b1, b2, b3]) ∧
    ∃ c0 c1 c2 c3 : Nat, c0 < 256 ∧ c1 < 256 ∧ c2 < 256 ∧ c3 < 256 ∧
      (0x80 ≤ c0 ∨ 0x80 ≤ c1 ∨ 0x80 ≤ c2 ∨ 0x80 ≤ c3) ∧
      unsynchsafe (shl32 c0 24 ||| shl32 c1 16 ||| shl32 c2 8 ||| c3)
        ≠ some (inlineSize [c0, c1, c2, c3]) := by
  constructor
  · rw [inlineSize_of_lt b0 b1 b2 b3 h0 h1 h2 h3, shl32_of_lt _ _ (by omega),
      shl32_of_lt _ _ (by omega), shl32_of_lt _ _ (by omega),
      lor_eq_add 24 (b0 * 2 ^ 24) (b1 * 2 ^ 16) (by omega) (by omega),
      lor_eq_add 16 (b0 * 2 ^ 24 + b1 * 2 ^ 16) (b2 * 2 ^ 8) (by omega) (by omega),
      lor_eq_add 8 (b0 * 2 ^ 24 + b1 * 2 ^ 16 + b2 * 2 ^ 8) b3 (by omega) (by omega),
      unsynchsafe_eq,
      show b0 * 2 ^ 24 + b1 * 2 ^ 16 + b2 * 2 ^ 8 + b3
        = 2 ^ 24 * b0 + 2 ^ 16 * b1 + 2 ^ 8 * b2 + b3 from by omega,
      (synchsafe_groups b0 b1 b2 b3 h0 h1 h2 h3).1, (synchsafe_groups b0 b1 b2 b3 h0 h1 h2 h3).2.1,
      (synchsafe_groups b0 b1 b2 b3 h0 h1 h2 h3).2.2.1,
      (synchsafe_groups b0 b1 b2 b3 h0 h1 h2 h3).2.2.2]
    congr 1
    omega
  · exact ⟨0, 0, 0, 0x80, by decide, by decide, by decide, by decide, by decide, by decide⟩

/-- Witness of C10 at the bytes `00 00 01 7F`. -/
theorem C10_unsynchsafe_vs_inline_witness :
    unsynchsafe (shl32 0 24 ||| shl32 0 16 ||| shl32 1 8 ||| 0x7F)
        = some (inlineSize [0, 0, 1, 0x7F]) :=
  (C10_unsynchsafe_vs_inline 0 0 1 0x7F (by decide) (by decide) (by decide) (by decide)).1

/-- C2. When the ten bytes `i0 i1 i2 v0 v1 fl b0 b1 b2 b3` are read by `readid3v2header` and
the four size bytes `b0..b3` each have bit 7 clear, the size member holds `b0..b3`, and
`tagsize = b0 * 2^21 + b1 * 2^14 + b2 * 2^7 + b3`, a value below `2^28`. -/
theorem C2_header_tagsize (f : FILE) (header : HEADERV2)
    (i0 i1 i2 v0 v1 fl b0 b1 b2 b3 : Nat) (rest : List Nat)
    (hf : f.bytes.drop f.pos = [i0, i1, i2, v0, v1, fl, b0, b1, b2, b3] ++ rest)
    (h0 : b0 < 0x80) (h1 : b1 < 0x80) (h2 : b2 < 0x80) (h3 : b3 < 0x80) :
    (readid3v2header f header).2.size = [b0, b1, b2, b3] ∧
    (readid3v2header f header).2.tagsize = b0 * 2 ^ 21 + b1 * 2 ^ 14 + b2 * 2 ^ 7 + b3 ∧
    (readid3v2header f header).2.tagsize < 2 ^ 28 := by
  rw [readid3v2header_of_available f header _ rest hf rfl]
  have hs : slice [i0, i1, i2, v0, v1, fl, b0, b1, b2, b3] 6 4 = [b0, b1, b2, b3] := rfl
  refine ⟨?_, ?_, ?_⟩
  · show slice ([i0, i1, i2, v0, v1, fl, b0, b1, b2, b3] ++ header.mem.drop 10) 6 4 = _
    rw [slice_append_left _ _ _ _ (by simp), hs]
  · show inlineSize (slice [i0, i1, i2, v0, v1, fl, b0, b1, b2, b3] 6 4) = _
    rw [hs, inlineSize_of_lt b0 b1 b2 b3 h0 h1 h2 h3]
  · show inlineSize (slice [i0, i1, i2, v0, v1, fl, b0, b1, b2, b3] 6 4) < _
    rw [hs, inlineSize_of_lt b0 b1 b2 b3 h0 h1 h2 h3]
    omega

/-- Witness of C2: the header bytes `49 44 33 04 00 00 00 00 00 7F` decode to `tagsize` 127. -/
theorem C2_header_tagsize_witness :
    (readid3v2header ⟨[0x49, 0x44, 0x33, 0x04, 0, 0, 0, 0, 0, 0x7F], 0⟩ ⟨[], 0⟩).2.tagsize
      = 127 :=
  (C2_header_tagsize ⟨[0x49, 0x44, 0x33, 0x04, 0, 0, 0, 0, 0, 0x7F], 0⟩ ⟨[], 0⟩
    0x49 0x44 0x33 0x04 0 0 0 0 0 0x7F [] rfl (by decide) (by decide) (by decide)
    (by decide)).2.1

/-- C7. On a byte source of length `L ≥ 128`, at any read position, `readid3v1header` fills the
structure with the source bytes `L-128 .. L-1` (`id` the first 3 of them, then `title` 30,
`artist` 30, `album` 30, `year` 4, `comment` 30, `genre` 1), and leaves the read position and
the bytes of the source as they were. -/
theorem C7_v1_reads_last_128 (f : FILE) (header : HEADERV1) (hL : 128 ≤ f.bytes.length) :
    slice (readid3v1header f header).2.mem 0 128 = slice f.bytes (f.bytes.length - 128) 128 ∧
    (readid3v1header f header).2.id = slice f.bytes (f.bytes.length - 128) 3 ∧
    (readid3v1header f header).2.title = slice f.bytes (f.bytes.length - 125) 30 ∧
    (readid3v1header f header).2.artist = slice f.bytes (f.bytes.length - 95) 30 ∧
    (readid3v1header f header).2.album = slice f.bytes (f.bytes.length - 65) 30 ∧
    (readid3v1header f header).2.year = slice f.bytes (f.bytes.length - 35) 4 ∧
    (readid3v1header f header).2.comment = slice f.bytes (f.bytes.length - 31) 30 ∧
    (readid3v1header f header).2.genre = f.bytes.getD (f.bytes.length - 1) 0 ∧
    (readid3v1header f header).1.pos = f.pos ∧
    (readid3v1header f header).1.bytes = f.bytes := by
  rw [readid3v1header_of_ge f header hL]
  have hlen : (f.bytes.drop (f.bytes.length - 128)).length = 128 := by
    rw [List.length_drop]; omega
  have key : ∀ i n, i + n ≤ 128 →
      slice (f.bytes.drop (f.bytes.length - 128) ++ header.mem.drop 128) i n
        = slice f.bytes (f.bytes.length - 128 + i) n := by
    intro i n h
    rw [slice_append_left _ _ _ _ (by omega), slice_drop]
  have o3 : f.bytes.length - 128 + 3 = f.bytes.length - 125 := by omega
  have o33 : f.bytes.length - 128 + 33 = f.bytes.length - 95 := by omega
  have o63 : f.bytes.length - 128 + 63 = f.bytes.length - 65 := by omega
  have o93 : f.bytes.length - 128 + 93 = f.bytes.length - 35 := by omega
  have o97 : f.bytes.length - 128 + 97 = f.bytes.length - 31 := by omega
  have o127 : f.bytes.length - 128 + 127 = f.bytes.length - 1 := by omega
  dsimp only [HEADERV1.id, HEADERV1.title, HEADERV1.artist, HEADERV1.album, HEADERV1.year,
    HEADERV1.comment, HEADERV1.genre]
  rw [key 0 128 (by omega), key 0 3 (by omega), key 3 30 (by omega), key 33 30 (by omega),
    key 63 30 (by omega), key 93 4 (by omega), key 97 30 (by omega), Nat.add_zero, o3, o33, o63,
    o93, o97, List.getD_append _ _ _ _ (by omega), List.getD_eq_getElem?_getD,
    List.getD_eq_getElem?_getD, List.getElem?_drop, o127]
  exact ⟨rfl, rfl, rfl, rfl, rfl, rfl, rfl, rfl, rfl, rfl⟩

set_option maxRecDepth 8000 in
/-- Witness of C7: a 128-byte source read at position 5. -/
theorem C7_v1_reads_last_128_witness :
    (readid3v1header ⟨sampleV1, 5⟩ ⟨[]⟩).2.id = slice sampleV1 (sampleV1.length - 128) 3 ∧
    (readid3v1header ⟨sampleV1, 5⟩ ⟨[]⟩).1.pos = 5 :=
  ⟨(C7_v1_reads_last_128 ⟨sampleV1, 5⟩ ⟨[]⟩ (by simp [sampleV1])).2.1,
   (C7_v1_reads_last_128 ⟨sampleV1, 5⟩ ⟨[]⟩ (by simp [sampleV1])).2.2.2.2.2.2.2.2.1⟩

/-- C4. When the read position is at a frame region made of one frame (the 10-byte frame header
`i0 i1 i2 i3 s0 s1 s2 s3 g0 g1` with an uppercase-alphanumeric id and size bytes with bit 7 clear
that encode `n`, then `n` payload bytes) followed by at least 10 zero bytes, `readid3v2frames`
hands exactly one frame to `printid3v2frameinfo`; its id is `i0 i1 i2 i3` and its declared size
is `n`.  No other call is made. -/
theorem C4_single_frame (f : FILE) (header : HEADERV2) (frame0 : HEADERFRAME)
    (i0 i1 i2 i3 s0 s1 s2 s3 g0 g1 n : Nat) (payload pad rest : List Nat)
    (_hid : isUpperAlnum i0 = true ∧ isUpperAlnum i1 = true ∧ isUpperAlnum i2 = true ∧
      isUpperAlnum i3 = true)
    (hs : s0 < 0x80 ∧ s1 < 0x80 ∧ s2 < 0x80 ∧ s3 < 0x80)
    (hn : n = s0 * 2 ^ 21 + s1 * 2 ^ 14 + s2 * 2 ^ 7 + s3)
    (_hpay : payload.length = n)
    (_hpad : 10 ≤ pad.length ∧ ∀ b ∈ pad, b = 0)
    (hf : f.bytes.drop f.pos
      = [i0, i1, i2, i3, s0, s1, s2, s3, g0, g1] ++ payload ++ pad ++ rest) :
    ∃ fr, (readid3v2frames f header frame0).2 = [Call.printid3v2frameinfo fr] ∧
      framesOf (readid3v2frames f header frame0).2 = [fr] ∧
      fr.id = [i0, i1, i2, i3] ∧ fr.framesize = n := by
  have hf2 : f.bytes.drop f.pos
      = [i0, i1, i2, i3, s0, s1, s2, s3, g0, g1] ++ (payload ++ pad ++ rest) := by
    rw [hf]; simp only [List.append_assoc]
  rw [readid3v2frames_of_available f header frame0 _ _ hf2 rfl]
  refine ⟨_, rfl, rfl, ?_, ?_⟩
  · show slice ([i0, i1, i2, i3, s0, s1, s2, s3, g0, g1] ++ frame0.mem.drop 10) 0 4 = _
    rw [slice_append_left _ _ _ _ (by simp)]
    rfl
  · show inlineSize (slice [i0, i1, i2, i3, s0, s1, s2, s3, g0, g1] 4 4) = n
    rw [show slice [i0, i1, i2, i3, s0, s1, s2, s3, g0, g1] 4 4 = [s0, s1, s2, s3] from rfl,
      inlineSize_of_lt s0 s1 s2 s3 hs.1 hs.2.1 hs.2.2.1 hs.2.2.2, hn]

/-- Witness of C4: the frame header `54 49 54 32 00 00 00 05 00 00` with 5 payload bytes and ten
zero bytes yields the single frame `TIT2` of declared size 5. -/
theorem C4_single_frame_witness :
    ∃ fr, (readid3v2frames
        ⟨[0x54, 0x49, 0x54, 0x32, 0, 0, 0, 5, 0, 0, 3, 0x61, 0x62, 0x63, 0x64,
          0, 0, 0, 0, 0, 0, 0, 0, 0, 0], 0⟩ (sampleHeaderV2 4) ⟨[], 0⟩).2
          = [Call.printid3v2frameinfo fr] ∧
      framesOf (readid3v2frames
        ⟨[0x54, 0x49, 0x54, 0x32, 0, 0, 0, 5, 0, 0, 3, 0x61, 0x62, 0x63, 0x64,
          0, 0, 0, 0, 0, 0, 0, 0, 0, 0], 0⟩ (sampleHeaderV2 4) ⟨[], 0⟩).2 = [fr] ∧
      fr.id = [0x54, 0x49, 0x54, 0x32] ∧ fr.framesize = 5 :=
  C4_single_frame
    ⟨[0x54, 0x49, 0x54, 0x32, 0, 0, 0, 5, 0, 0, 3, 0x61, 0x62, 0x63, 0x64,
      0, 0, 0, 0, 0, 0, 0, 0, 0, 0], 0⟩ (sampleHeaderV2 4) ⟨[], 0⟩
    0x54 0x49 0x54 0x32 0 0 0 5 0 0 5 [3, 0x61, 0x62, 0x63, 0x64]
    [0, 0, 0, 0, 0, 0, 0, 0, 0, 0] []
    (by decide) (by decide) (by decide) (by decide) (by decide) (by decide)

/-- C3, counterexample. Under major version 4 the frame header `54 49 54 32 00 00 00 FF 00 00`,
whose 4th size byte is `0xFF`, does not give zero frames and no size: `readid3v2frames` hands
one frame to `printid3v2frameinfo`, with declared size 255; and `readid3v2header` gives the
size 255 for the size bytes `00 00 00 FF`. -/
theorem C3_counterexample :
    (sampleHeaderV2 4).ver = [4, 0] ∧
    framesOf (readid3v2frames ⟨[0x54, 0x49, 0x54, 0x32, 0, 0, 0, 0xFF, 0, 0], 0⟩
        (sampleHeaderV2 4) ⟨[], 0⟩).2
      = [⟨[0x54, 0x49, 0x54, 0x32, 0, 0, 0, 0xFF, 0, 0], 255⟩] ∧
    (readid3v2header ⟨[0x49, 0x44, 0x33, 4, 0, 0, 0, 0, 0, 0xFF], 0⟩ ⟨[], 0⟩).2.tagsize = 255 := by
  decide

/-- C3, amended. The size decode of the two readers never fails: for every four size bytes
`b0..b3`, also when some are `0x80` or more, `readid3v2header` sets `tagsize` and
`readid3v2frames` sets the `framesize` of the one frame it yields to
`b0<<21 | b1<<14 | b2<<7 | b3`, a value below `2^29`. -/
theorem C3_size_decode_total (f g : FILE) (header0 header : HEADERV2) (frame0 : HEADERFRAME)
    (p0 p1 p2 p3 p4 p5 i0 i1 i2 i3 g0 g1 b0 b1 b2 b3 : Nat) (rest rest2 : List Nat)
    (h0 : b0 < 256) (h1 : b1 < 256) (h2 : b2 < 256) (h3 : b3 < 256)
    (hf : f.bytes.drop f.pos = [p0, p1, p2, p3, p4, p5, b0, b1, b2, b3] ++ rest)
    (hg : g.bytes.drop g.pos = [i0, i1, i2, i3, b0, b1, b2, b3, g0, g1] ++ rest2) :
    (readid3v2header f header0).2.tagsize = (b0 <<< 21 ||| b1 <<< 14 ||| b2 <<< 7 ||| b3) ∧
    (∃ fr, framesOf (readid3v2frames g header frame0).2 = [fr] ∧
      fr.framesize = (b0 <<< 21 ||| b1 <<< 14 ||| b2 <<< 7 ||| b3)) ∧
    (b0 <<< 21 ||| b1 <<< 14 ||| b2 <<< 7 ||| b3) < 2 ^ 29 := by
  have hb := inlineSize_of_byte b0 b1 b2 b3 h0 h1 h2 h3
  rw [readid3v2header_of_available f header0 _ rest hf rfl,
    readid3v2frames_of_available g header frame0 _ rest2 hg rfl]
  refine ⟨?_, ⟨_, rfl, ?_⟩, ?_⟩
  · show inlineSize (slice [p0, p1, p2, p3, p4, p5, b0, b1, b2, b3] 6 4) = _
    rw [show slice [p0, p1, p2, p3, p4, p5, b0, b1, b2, b3] 6 4 = [b0, b1, b2, b3] from rfl]
    exact hb.1
  · show inlineSize (slice [i0, i1, i2, i3, b0, b1, b2, b3, g0, g1] 4 4) = _
    rw [show slice [i0, i1, i2, i3, b0, b1, b2, b3, g0, g1] 4 4 = [b0, b1, b2, b3] from rfl]
    exact hb.1
  · rw [← hb.1]
    exact hb.2

/-- Witness of C3, amended, at the size bytes `00 00 00 FF`. -/
theorem C3_size_decode_total_witness :
    (readid3v2header ⟨[0x49, 0x44, 0x33, 4, 0, 0, 0, 0, 0, 0xFF], 0⟩ ⟨[], 0⟩).2.tagsize
      = (0 <<< 21 ||| 0 <<< 14 ||| 0 <<< 7 ||| 0xFF) :=
  (C3_size_decode_total ⟨[0x49, 0x44, 0x33, 4, 0, 0, 0, 0, 0, 0xFF], 0⟩
    ⟨[0x54, 0x49, 0x54, 0x32, 0, 0, 0, 0xFF, 0, 0], 0⟩ ⟨[], 0⟩ (sampleHeaderV2 4) ⟨[], 0⟩
    0x49 0x44 0x33 4 0 0 0x54 0x49 0x54 0x32 0 0 0 0 0 0xFF [] []
    (by decide) (by decide) (by decide) (by decide) rfl rfl).1

/-- C5, counterexample. Under major version 3 the size bytes `00 00 01 00` are not read as the
big-endian number 256 that the stated rule gives: the frame gets `framesize` 128.  Under major
version 4 the size bytes `00 01 80 00` do not give the sum `0x8000` of the stated rule either:
the frame gets `framesize` `0x4000`. -/
theorem C5_counterexample :
    ((sampleHeaderV2 3).ver.getD 0 0 = 3 ∧
      specDeclaredSize 3 [0, 0, 1, 0] = 256 ∧
      framesOf (readid3v2frames ⟨[0x54, 0x49, 0x54, 0x32, 0, 0, 1, 0, 0, 0], 0⟩
          (sampleHeaderV2 3) ⟨[], 0⟩).2
        = [⟨[0x54, 0x49, 0x54, 0x32, 0, 0, 1, 0, 0, 0], 128⟩]) ∧
    ((sampleHeaderV2 4).ver.getD 0 0 = 4 ∧
      specDeclaredSize 4 [0, 1, 0x80, 0] = 0x8000 ∧
      framesOf (readid3v2frames ⟨[0x54, 0x49, 0x54, 0x32, 0, 1, 0x80, 0, 0, 0], 0⟩
          (sampleHeaderV2 4) ⟨[], 0⟩).2
        = [⟨[0x54, 0x49, 0x54, 0x32, 0, 1, 0x80, 0, 0, 0], 0x4000⟩]) := by
  decide

/-- C5, amended. The declared size of the frame is decoded by one rule, whatever the major
version of the v2 header: for every frame header with size bytes `b0..b3`,
`framesize = b0<<21 | b1<<14 | b2<<7 | b3`, which is `b0*2^21 + b1*2^14 + b2*2^7 + b3` (the
synchsafe reading, the stated rule for major version 4 and above) when every size byte is
below `0x80`; any two v2 headers give the same frames. -/
theorem C5_framesize_one_rule (f : FILE) (header other : HEADERV2) (frame0 : HEADERFRAME)
    (i0 i1 i2 i3 b0 b1 b2 b3 g0 g1 : Nat) (rest : List Nat)
    (h0 : b0 < 256) (h1 : b1 < 256) (h2 : b2 < 256) (h3 : b3 < 256)
    (hf : f.bytes.drop f.pos = [i0, i1, i2, i3, b0, b1, b2, b3, g0, g1] ++ rest) :
    readid3v2frames f header frame0 = readid3v2frames f other frame0 ∧
    ∃ fr, framesOf (readid3v2frames f header frame0).2 = [fr] ∧
      fr.size = [b0, b1, b2, b3] ∧
      fr.framesize = (b0 <<< 21 ||| b1 <<< 14 ||| b2 <<< 7 ||| b3) ∧
      (b0 < 0x80 ∧ b1 < 0x80 ∧ b2 < 0x80 ∧ b3 < 0x80 →
        fr.framesize = b0 * 2 ^ 21 + b1 * 2 ^ 14 + b2 * 2 ^ 7 + b3 ∧
        fr.framesize = specDeclaredSize 4 [b0, b1, b2, b3]) := by
  refine ⟨rfl, ?_⟩
  rw [readid3v2frames_of_available f header frame0 _ rest hf rfl]
  have hsl : slice [i0, i1, i2, i3, b0, b1, b2, b3, g0, g1] 4 4 = [b0, b1, b2, b3] := rfl
  refine ⟨_, rfl, ?_, ?_, ?_⟩
  · show slice ([i0, i1, i2, i3, b0, b1, b2, b3, g0, g1] ++ frame0.mem.drop 10) 4 4 = _
    rw [slice_append_left _ _ _ _ (by simp), hsl]
  · show inlineSize (slice [i0, i1, i2, i3, b0, b1, b2, b3, g0, g1] 4 4) = _
    rw [hsl]
    exact (inlineSize_of_byte b0 b1 b2 b3 h0 h1 h2 h3).1
  · intro hlt
    show inlineSize (slice [i0, i1, i2, i3, b0, b1, b2, b3, g0, g1] 4 4) = _ ∧
      inlineSize (slice [i0, i1, i2, i3, b0, b1, b2, b3, g0, g1] 4 4) = _
    rw [hsl, inlineSize_of_lt b0 b1 b2 b3 hlt.1 hlt.2.1 hlt.2.2.1 hlt.2.2.2]
    exact ⟨rfl, rfl⟩

/-- Witness of C5, amended: the size bytes `00 00 01 00` under major version 3. -/
theorem C5_framesize_one_rule_witness :
    ∃ fr, framesOf (readid3v2frames ⟨[0x54, 0x49, 0x54, 0x32, 0, 0, 1, 0, 0, 0], 0⟩
        (sampleHeaderV2 3) ⟨[], 0⟩).2 = [fr] ∧
      fr.size = [0, 0, 1, 0] ∧
      fr.framesize = (0 <<< 21 ||| 0 <<< 14 ||| 1 <<< 7 ||| 0) ∧
      (0 < 0x80 ∧ 0 < 0x80 ∧ 1 < 0x80 ∧ 0 < 0x80 →
        fr.framesize = 0 * 2 ^ 21 + 0 * 2 ^ 14 + 1 * 2 ^ 7 + 0 ∧
        fr.framesize = specDeclaredSize 4 [0, 0, 1, 0]) :=
  (C5_framesize_one_rule ⟨[0x54, 0x49, 0x54, 0x32, 0, 0, 1, 0, 0, 0], 0⟩
    (sampleHeaderV2 3) (sampleHeaderV2 4) ⟨[], 0⟩ 0x54 0x49 0x54 0x32 0 0 1 0 0 0 []
    (by decide) (by decide) (by decide) (by decide) rfl).2

/-- C6, the code at the failing input. The frame region of `sampleTwoFrames` holds the two
frames `TIT2` and `TPE1` back to back, then zero bytes; `readid3v2frames`, started at the
region, yields the frame `TIT2` only and leaves the read position at 20, inside the first
frame; so does `main` on the whole source. -/
theorem C6_second_frame_not_read :
    framesOf (readid3v2frames ⟨sampleTwoFrames, 10⟩
        ⟨[0x49, 0x44, 0x33, 0x04, 0, 0, 0, 0, 0, 0x20], 32⟩ ⟨[], 0⟩).2
      = [⟨[0x54, 0x49, 0x54, 0x32, 0, 0, 0, 1, 0, 0], 1⟩] ∧
    (readid3v2frames ⟨sampleTwoFrames, 10⟩
        ⟨[0x49, 0x44, 0x33, 0x04, 0, 0, 0, 0, 0, 0x20], 32⟩ ⟨[], 0⟩).1.pos = 20 ∧
    framesOf (main (some sampleTwoFrames) ⟨[], 0⟩ ⟨[]⟩ ⟨[], 0⟩)
      = [⟨[0x54, 0x49, 0x54, 0x32, 0, 0, 0, 1, 0, 0], 1⟩] := by
  decide

set_option maxRecDepth 8000 in
/-- C8, counterexample. On a source of exactly 128 zero bytes, whose first three bytes are not
`TAG`, the v1 reader still produces a header, with id `00 00 00`, and the first call of `main`
hands it to `printid3v1headerinfo`: the result is not absent. -/
theorem C8_counterexample :
    ∃ h cs, main (some (List.replicate 128 0)) ⟨[], 0⟩ ⟨[]⟩ ⟨[], 0⟩
        = Call.printid3v1headerinfo h :: cs ∧
      h = (readid3v1header ⟨List.replicate 128 0, 0⟩ ⟨[]⟩).2 ∧
      h.id = [0, 0, 0] ∧ h.id ≠ [0x54, 0x41, 0x47] :=
  ⟨_, _, rfl, rfl, by decide, by decide⟩

/-- C8, amended. On every byte source of length at least 128, whatever the first three of its
last 128 bytes are, the v1 reader produces a header holding those 128 bytes, and the first call
of `main` hands it to `printid3v1headerinfo`; the id is not compared with `TAG`. -/
theorem C8_v1_header_always_produced (bytes : List Nat) (m2 : HEADERV2) (m1 : HEADERV1)
    (mf : HEADERFRAME) (hL : 128 ≤ bytes.length) :
    ∃ h cs, main (some bytes) m2 m1 mf = Call.printid3v1headerinfo h :: cs ∧
      h = (readid3v1header ⟨bytes, 0⟩ m1).2 ∧
      h.id = slice bytes (bytes.length - 128) 3 ∧
      slice h.mem 0 128 = slice bytes (bytes.length - 128) 128 := by
  refine ⟨_, _, rfl, rfl, ?_, ?_⟩
  · rw [readid3v1header_of_ge ⟨bytes, 0⟩ m1 hL]
    show slice (bytes.drop (bytes.length - 128) ++ m1.mem.drop 128) 0 3 = _
    rw [slice_append_left _ _ _ _ (by rw [List.length_drop]; omega), slice_drop, Nat.add_zero]
  · rw [readid3v1header_of_ge ⟨bytes, 0⟩ m1 hL]
    show slice (bytes.drop (bytes.length - 128) ++ m1.mem.drop 128) 0 128 = _
    rw [slice_append_left _ _ _ _ (by rw [List.length_drop]; omega), slice_drop, Nat.add_zero]

set_option maxRecDepth 8000 in
/-- Witness of C8, amended: the 128-byte source `sampleV1`. -/
theorem C8_v1_header_always_produced_witness :
    ∃ h cs, main (some sampleV1) ⟨[], 0⟩ ⟨[]⟩ ⟨[], 0⟩ = Call.printid3v1headerinfo h :: cs ∧
      h = (readid3v1header ⟨sampleV1, 0⟩ ⟨[]⟩).2 ∧
      h.id = slice sampleV1 (sampleV1.length - 128) 3 ∧
      slice h.mem 0 128 = slice sampleV1 (sampleV1.length - 128) 128 :=
  C8_v1_header_always_produced sampleV1 ⟨[], 0⟩ ⟨[]⟩ ⟨[], 0⟩ (by simp [sampleV1])

end Id3
